import Mathlib

/-!
Shallow embedding of `src/lib/index.js` (the `buffer-struct` package): a typed,
field-addressable view over a raw byte buffer, with optional write caching.

Buffers are modelled as lists of bytes living in an explicit heap (a list of
allocated buffers, addressed by index), so that aliasing between the view's
live buffer and buffers handed out by `toBuffer`/`getPointer` is observable.
JavaScript values reaching the API are modelled by the inductive `JSVal`.
Node's `new Buffer(n)` allocates *uninitialized* memory; we model the
allocator's raw memory contents by an ambient function `mem : Nat → Nat`.
-/

/-- A buffer is a finite sequence of bytes (modelled as naturals). -/
abbrev Buffer := List Nat

/-- The heap of allocated buffers; a buffer reference is an index into it. -/
abbrev Heap := List Buffer

/-- JavaScript values that can reach the `Struct` API. A `vbuf r` is a Buffer
object: a reference `r` into the heap. -/
inductive JSVal where
  | vundefined
  | vnull
  | vbool (b : Bool)
  | vnum (n : Int)
  | vstr (s : String)
  | vbuf (r : Nat)
deriving DecidableEq, Repr

/-- JavaScript truthiness: `undefined`, `null`, `false`, `0` and `""` are
falsy; objects (hence Buffers) are always truthy. -/
def JSVal.truthy : JSVal → Bool
  | .vundefined => false
  | .vnull => false
  | .vbool b => b
  | .vnum n => decide (n ≠ 0)
  | .vstr s => decide (s ≠ "")
  | .vbuf _ => true

/-- `Buffer.isBuffer(v)` from Node. -/
def JSVal.isBuffer : JSVal → Bool
  | .vbuf _ => true
  | _ => false

/-- A per-field codec, as consumed by the core (spec §4.3/§6): `read` decodes
a value from a buffer at an offset, `write` encodes a value into a buffer at
an offset and returns the updated buffer. -/
structure Codec where
  read : Buffer → Nat → JSVal
  write : Buffer → Nat → JSVal → Buffer

/-- A field of a Shape: name, byte offset, codec and byte length (spec §3). -/
structure FieldDescriptor where
  name : String
  offset : Nat
  codec : Codec
  byteLength : Nat

/-- A Shape: the immutable ordered field layout plus total byte length,
shared by every view built from it (spec §3). -/
structure Shape where
  fields : List FieldDescriptor
  totalLength : Nat

/-- Errors raised by the core. `rangeError` carries the required and the
actual length, mirroring the `format(..., this.length, buf.length)` message
of `Struct#setPointer`. `configError` is the configuration-error class the
spec assigns to the factory. -/
inductive JsError where
  | typeError
  | rangeError (needed : Nat) (got : Nat)
  | configError
deriving DecidableEq, Repr

/-- The mutable state of a Struct view: the bound Shape, the heap reference
of the live buffer (`this.__.buf`), the caching flag stored verbatim
(`this.__.caching`), and the write cache (`this.__.cache`), an association
list from field name to pending value. -/
structure StructState where
  shape : Shape
  bufRef : Nat
  caching : JSVal
  cache : List (String × JSVal)

/-- Node's `new Buffer(n)`: allocates `n` bytes of *uninitialized* memory
(the source itself warns that unwritten fields read as gibberish). The
contents are whatever raw bytes the allocator hands back, modelled by the
ambient memory `mem`. -/
def newBuffer (mem : Nat → Nat) (n : Nat) : Buffer :=
  (List.range n).map mem

/-- Lookup in the write cache (JavaScript `field in cache` / `cache[field]`). -/
def cacheLookup (c : List (String × JSVal)) (field : String) : Option JSVal :=
  match c with
  | [] => none
  | (k, w) :: rest => if k = field then some w else cacheLookup rest field

/-- JavaScript property assignment `cache[field] = val`: replaces the value
in place when the key exists, appends otherwise. -/
def cacheInsert (c : List (String × JSVal)) (field : String) (v : JSVal) :
    List (String × JSVal) :=
  match c with
  | [] => [(field, v)]
  | (k, w) :: rest =>
    if k = field then (k, v) :: rest else (k, w) :: cacheInsert rest field v

/-- Find the descriptor of a field by name in a Shape. -/
def Shape.findField (sh : Shape) (field : String) : Option FieldDescriptor :=
  sh.fields.find? (fun fd => fd.name = field)

/-- Modelled from the spec: the `this.__.read(field)` dispatch is installed by
code of this repository outside `src/lib/index.js`; per §4.3 it locates the
field's codec and offset in the Shape and invokes the codec's `read` over the
bound buffer at that offset. -/
def readField (h : Heap) (st : StructState) (field : String) : JSVal :=
  match st.shape.findField field with
  | some fd => fd.codec.read (h.getD st.bufRef []) fd.offset
  | none => .vundefined

/-- Modelled from the spec: the `this.__.write(field, val)` dispatch is
installed by code of this repository outside `src/lib/index.js`; per §4.4 it
invokes the codec's `write` against the bound buffer at the field's offset.
Returns the updated heap. -/
def writeField (h : Heap) (st : StructState) (field : String) (val : JSVal) : Heap :=
  match st.shape.findField field with
  | some fd => h.set st.bufRef (fd.codec.write (h.getD st.bufRef []) fd.offset val)
  | none => h

/-- `Struct.prototype.setPointer(buf, start)` (src lines 112–136). A falsy
`buf` allocates fresh uninitialized memory of `this.length` bytes; a truthy
non-Buffer raises a `TypeError`; a Buffer shorter than `this.length` raises a
`RangeError` carrying required and actual lengths; otherwise the buffer is
adopted by reference. The `start` parameter is declared in the source but
never read, so it is unused here as well. `this.length` is the Shape's total
length (its definition lives outside `src/lib/index.js`; modelled from the
spec as `shape.totalLength`). -/
def setPointer (mem : Nat → Nat) (h : Heap) (st : StructState) (buf : JSVal)
    (start : Option Nat) : Except JsError (Heap × StructState) :=
  if buf.truthy = false then
    .ok (h ++ [newBuffer mem st.shape.totalLength], { st with bufRef := h.length })
  else
    match buf with
    | .vbuf r =>
      if (h.getD r []).length < st.shape.totalLength then
        .error (.rangeError st.shape.totalLength (h.getD r []).length)
      else
        .ok (h, { st with bufRef := r })
    | _ => .error .typeError

/-- The accessor-definition loop of the constructor (src line 28):
`this.__.fields.forEach(defineProperty, this)` calls
`Object.defineProperty(this, field, {get, set})` for each field in order.
Omitted descriptor attributes default to `configurable: false`, and each call
binds fresh getter/setter functions, so a repeated field name attempts to
redefine a non-configurable accessor with different functions — which throws
a `TypeError` per ECMAScript. Modelled by walking the fields in declaration
order while accumulating the names already defined on the instance. -/
def defineProperties (defined : List String) : List FieldDescriptor → Except JsError Unit
  | [] => .ok ()
  | fd :: rest =>
    if fd.name ∈ defined then .error .typeError
    else defineProperties (fd.name :: defined) rest

/-- `new Struct(buf, caching)` (src lines 15–29): runs `this.setPointer(buf)`
(with no `start` argument), stores the `caching` flag verbatim, then defines
the per-field accessors (`defineProperties`), which throws a `TypeError` on a
repeated field name. The view starts with an empty write cache (the
`this.__` initialization lives outside `src/lib/index.js`; modelled from the
spec: a fresh view has no pending cached writes). -/
def StructNew (mem : Nat → Nat) (h : Heap) (shape : Shape) (buf caching : JSVal) :
    Except JsError (Heap × StructState) :=
  match setPointer mem h { shape := shape, bufRef := 0, caching := .vundefined, cache := [] } buf none with
  | .error e => .error e
  | .ok (h', st') =>
    match defineProperties [] shape.fields with
    | .error e => .error e
    | .ok _ => .ok (h', { st' with caching := caching })

/-- `Struct(buf, caching)` invoked without `new` (src line 16): the guard
executes `return new Struct(buf)`, forwarding only the first argument, so the
constructor sees `caching = undefined`. -/
def StructCall (mem : Nat → Nat) (h : Heap) (shape : Shape) (buf caching : JSVal) :
    Except JsError (Heap × StructState) :=
  StructNew mem h shape buf .vundefined

/-- `Struct.prototype.get(field)` (src lines 50–64): with caching enabled and
the field present in the cache, return the cached value; otherwise read from
the live buffer through `this.__.read`. -/
def Struct.get (h : Heap) (st : StructState) (field : String) : JSVal :=
  if st.caching.truthy ∧ (cacheLookup st.cache field).isSome then
    (cacheLookup st.cache field).getD .vundefined
  else
    readField h st field

/-- `Struct.prototype.set(field, val)` (src lines 79–88): with caching
enabled, store `val` verbatim into the cache and return; otherwise write
through `this.__.write` immediately. -/
def Struct.set (h : Heap) (st : StructState) (field : String) (val : JSVal) :
    Heap × StructState :=
  if st.caching.truthy then
    (h, { st with cache := cacheInsert st.cache field val })
  else
    (writeField h st field val, st)

/-- One flush step of `serialize`: write the pending cached value of a single
field, if any, to the live buffer. -/
def flushField (st : StructState) (h : Heap) (fd : FieldDescriptor) : Heap :=
  match cacheLookup st.cache fd.name with
  | some v => h.set st.bufRef (fd.codec.write (h.getD st.bufRef []) fd.offset v)
  | none => h

/-- Modelled from the spec: `Struct#serialize()` is referenced by the
constructor's comment in `src/lib/index.js` but not defined there. Per §4.6:
for every field present in the cache, in field-declaration order of the
Shape, invoke the codec's `write` against the live buffer at that field's
offset using the cached value; then clear the satisfied cache entries. -/
def Struct.serialize (h : Heap) (st : StructState) : Heap × StructState :=
  (st.shape.fields.foldl (flushField st) h,
   { st with cache := st.cache.filter (fun kv => (st.shape.findField kv.1).isNone) })

/-- `Struct.prototype.toBuffer()` (src lines 146–150): allocate a fresh
`this.length`-byte buffer, copy the live buffer into it (`buf.copy` copies
`min` of the two lengths, starting at position 0 of both), and return it.
Returns the extended heap and the reference of the fresh copy. -/
def Struct.toBuffer (mem : Nat → Nat) (h : Heap) (st : StructState) : Heap × Nat :=
  let fresh := newBuffer mem st.shape.totalLength
  let src := h.getD st.bufRef []
  let k := min fresh.length src.length
  (h ++ [src.take k ++ fresh.drop k], h.length)

/-- `Struct.prototype.getPointer()` (src lines 98–100): returns the live
buffer by reference. -/
def Struct.getPointer (st : StructState) : Nat :=
  st.bufRef

/-- `createStruct` (src lines 178–185): takes no field-list input and
performs no validation of any kind; it returns a constructor `_` that just
applies `Struct` to its arguments (so, with `new`, it behaves exactly as
`StructNew`). -/
def createStruct :
    Except JsError ((Nat → Nat) → Heap → Shape → JSVal → JSVal → Except JsError (Heap × StructState)) :=
  .ok StructNew

/-- A get/set operation on a view, for stating invariants over operation
sequences. -/
inductive Op where
  | getOp (f : String)
  | setOp (f : String) (v : JSVal)

/-- Run a sequence of get/set operations on a view. `get` has no effect on
the state; `set` updates heap and state per `Struct.set`. -/
def runOps (h : Heap) (st : StructState) : List Op → Heap × StructState
  | [] => (h, st)
  | .getOp _ :: rest => runOps h st rest
  | .setOp f v :: rest =>
    let p := Struct.set h st f v
    runOps p.1 p.2 rest

/-! ## Concrete fixtures used by witnesses and counterexamples -/

/-- A one-byte unsigned-integer codec used in concrete examples. -/
def exCodec : Codec :=
  { read := fun b off => .vnum (Int.ofNat (b.getD off 0)),
    write := fun b off v =>
      match v with
      | .vnum n => b.set off (n.toNat % 256)
      | _ => b }

/-- A single one-byte field named `a` at offset 0. -/
def exField : FieldDescriptor :=
  { name := "a", offset := 0, codec := exCodec, byteLength := 1 }

/-- A Shape with the single field `a` and total length 1. -/
def exShape : Shape :=
  { fields := [exField], totalLength := 1 }

/-- A view over `exShape` with caching enabled. -/
def exStCaching : StructState :=
  { shape := exShape, bufRef := 0, caching := .vbool true, cache := [] }

/-- A view over `exShape` with caching disabled (the default `undefined`). -/
def exStPlain : StructState :=
  { shape := exShape, bufRef := 0, caching := .vundefined, cache := [] }

/-- A Shape with a repeated field name, for exercising the factory. -/
def dupShape : Shape :=
  { fields := [exField, exField], totalLength := 1 }

/-! ## Helper lemmas -/

theorem cacheLookup_cacheInsert_self (c : List (String × JSVal)) (f : String) (v : JSVal) :
    cacheLookup (cacheInsert c f v) f = some v := by
  induction c with
  | nil => simp [cacheInsert, cacheLookup]
  | cons kv rest ih =>
    obtain ⟨k, w⟩ := kv
    by_cases hk : k = f
    · simp [cacheInsert, cacheLookup, hk]
    · simp [cacheInsert, cacheLookup, hk, ih]

theorem cacheLookup_filter_none (c : List (String × JSVal)) (p : String × JSVal → Bool)
    (f : String) (hp : ∀ v, p (f, v) = false) :
    cacheLookup (c.filter p) f = none := by
  induction c with
  | nil => rfl
  | cons kv rest ih =>
    obtain ⟨k, w⟩ := kv
    by_cases hk : k = f
    · subst hk
      simp [List.filter_cons, hp w, ih]
    · cases hpk : p (k, w) <;> simp [List.filter_cons, hpk, cacheLookup, hk, ih]

theorem heapGetD_append_self (l : Heap) (b : Buffer) :
    (l ++ [b]).getD l.length [] = b := by
  rw [List.getD_append_right _ _ _ _ (Nat.le_refl _)]
  simp

theorem heapGetD_set_ne (l : Heap) (i j : Nat) (b : Buffer) (hij : i ≠ j) :
    (l.set i b).getD j [] = l.getD j [] := by
  rw [List.getD_eq_getElem?_getD, List.getD_eq_getElem?_getD, List.getElem?_set_ne hij]

theorem newBuffer_length (mem : Nat → Nat) (n : Nat) :
    (newBuffer mem n).length = n := by
  simp [newBuffer]

theorem newBuffer_getD (mem : Nat → Nat) (n i : Nat) :
    (newBuffer mem n).getD i 0 = if i < n then mem i else 0 := by
  by_cases hi : i < n
  · rw [List.getD_eq_getElem?_getD]
    simp [newBuffer, List.getElem?_range hi, hi]
  · rw [List.getD_eq_default _ _ (by simpa [newBuffer] using Nat.le_of_not_lt hi)]
    simp [hi]

theorem set_noncaching (h : Heap) (st : StructState) (f : String) (v : JSVal)
    (hc : st.caching.truthy = false) :
    Struct.set h st f v = (writeField h st f v, st) := by
  simp [Struct.set, hc]

theorem get_congr (h h' : Heap) (st : StructState) (f : String)
    (hb : h.getD st.bufRef [] = h'.getD st.bufRef []) :
    Struct.get h st f = Struct.get h' st f := by
  unfold Struct.get readField
  rw [hb]

theorem findField_isSome_of_mem (sh : Shape) (fd : FieldDescriptor)
    (hmem : fd ∈ sh.fields) :
    (sh.findField fd.name).isSome = true := by
  rw [Shape.findField, List.find?_isSome]
  exact ⟨fd, hmem, by simp⟩

theorem defineProperties_ok_of_nodup (fields : List FieldDescriptor) (defined : List String)
    (hnd : (fields.map FieldDescriptor.name).Nodup)
    (hdisj : ∀ fd ∈ fields, fd.name ∉ defined) :
    defineProperties defined fields = .ok () := by
  induction fields generalizing defined with
  | nil => rfl
  | cons fd rest ih =>
    rw [List.map_cons, List.nodup_cons] at hnd
    have hin : fd.name ∉ defined := hdisj fd (List.mem_cons_self _ _)
    rw [defineProperties, if_neg hin]
    apply ih _ hnd.2
    intro fd' hmem' hcon
    rcases List.mem_cons.mp hcon with heq | hdef
    · exact hnd.1 (heq ▸ List.mem_map_of_mem FieldDescriptor.name hmem')
    · exact hdisj fd' (List.mem_cons_of_mem _ hmem') hdef

theorem defineProperties_error_of_dup (fields : List FieldDescriptor) (defined : List String)
    (hbad : ¬ (fields.map FieldDescriptor.name).Nodup ∨ ∃ fd ∈ fields, fd.name ∈ defined) :
    defineProperties defined fields = .error .typeError := by
  induction fields generalizing defined with
  | nil =>
    rcases hbad with hnd | ⟨fd, hmem, _⟩
    · exact absurd List.nodup_nil hnd
    · exact absurd hmem (List.not_mem_nil fd)
  | cons fd rest ih =>
    by_cases hin : fd.name ∈ defined
    · rw [defineProperties, if_pos hin]
    · rw [defineProperties, if_neg hin]
      apply ih
      rcases hbad with hnd | ⟨fd', hmem', hdef'⟩
      · rw [List.map_cons, List.nodup_cons] at hnd
        by_cases hrest : (rest.map FieldDescriptor.name).Nodup
        · have hmem : fd.name ∈ rest.map FieldDescriptor.name := by tauto
          obtain ⟨fd', hmem', hname⟩ := List.mem_map.mp hmem
          exact Or.inr ⟨fd', hmem', hname ▸ List.mem_cons_self _ _⟩
        · exact Or.inl hrest
      · rcases List.mem_cons.mp hmem' with heq | hmem''
        · exact absurd (heq ▸ hdef') hin
        · exact Or.inr ⟨fd', hmem'', List.mem_cons_of_mem _ hdef'⟩

/-! ## Claim theorems -/

/-- C2: with caching enabled, for every field `f` and value `v`, `get(f)`
called after `set(f, v)` but before `serialize()` returns `v` unchanged (the
verbatim stored value, not a codec-decoded one), and no byte of the
underlying buffer is modified by the set (the whole heap is unchanged). -/
theorem cached_set_get (h : Heap) (st : StructState) (f : String) (v : JSVal)
    (hc : st.caching.truthy = true) :
    (Struct.set h st f v).1 = h ∧
    Struct.get (Struct.set h st f v).1 (Struct.set h st f v).2 f = v := by
  refine ⟨by simp [Struct.set, hc], ?_⟩
  simp [Struct.set, Struct.get, hc, cacheLookup_cacheInsert_self]

/-- Witness for C2 at a concrete input. -/
theorem cached_set_get_witness :
    (Struct.set [[0]] exStCaching "a" (.vnum 5)).1 = [[0]] ∧
    Struct.get (Struct.set [[0]] exStCaching "a" (.vnum 5)).1
      (Struct.set [[0]] exStCaching "a" (.vnum 5)).2 "a" = .vnum 5 :=
  cached_set_get [[0]] exStCaching "a" (.vnum 5) rfl

/-- C9: for every view with caching disabled (a falsy caching flag) and an
empty cache, the cache remains empty across every sequence of get/set
operations (indeed the whole view state is unchanged), every `set` invokes
the codec's write immediately on the buffer, and every `get` reads from the
live buffer via the codec's read. -/
theorem caching_disabled_invariant (h : Heap) (st : StructState) (ops : List Op)
    (hc : st.caching.truthy = false) (he : st.cache = []) :
    (runOps h st ops).2 = st ∧
    (runOps h st ops).2.cache = [] ∧
    (∀ f v, Struct.set h st f v = (writeField h st f v, st)) ∧
    (∀ f, Struct.get h st f = readField h st f) := by
  have hrun : (runOps h st ops).2 = st := by
    induction ops generalizing h with
    | nil => rfl
    | cons op rest ih =>
      cases op with
      | getOp f => exact ih h
      | setOp f v =>
        show (runOps (Struct.set h st f v).1 (Struct.set h st f v).2 rest).2 = st
        rw [set_noncaching h st f v hc]
        exact ih (writeField h st f v)
  refine ⟨hrun, by rw [hrun, he], fun f v => set_noncaching h st f v hc, fun f => ?_⟩
  simp [Struct.get, he, cacheLookup]

/-- Witness for C9 at a concrete input. -/
theorem caching_disabled_invariant_witness :
    (runOps [[0]] exStPlain [.setOp "a" (.vnum 3), .getOp "a"]).2 = exStPlain ∧
    (runOps [[0]] exStPlain [.setOp "a" (.vnum 3), .getOp "a"]).2.cache = [] ∧
    (∀ f v, Struct.set [[0]] exStPlain f v = (writeField [[0]] exStPlain f v, exStPlain)) ∧
    (∀ f, Struct.get [[0]] exStPlain f = readField [[0]] exStPlain f) :=
  caching_disabled_invariant [[0]] exStPlain [.setOp "a" (.vnum 3), .getOp "a"] rfl rfl

/-- C10: invoking `Struct` without `new`, for every buffer argument and
caching flag, forwards only the buffer: the resulting view is the one built
with `caching = undefined`, whose caching flag is falsy (caching disabled)
regardless of the flag passed. -/
theorem struct_call_drops_caching (mem : Nat → Nat) (h : Heap) (sh : Shape)
    (buf c : JSVal) :
    StructCall mem h sh buf c = StructNew mem h sh buf .vundefined ∧
    (∀ h' st', StructCall mem h sh buf c = .ok (h', st') →
      st'.caching = .vundefined ∧ st'.caching.truthy = false) := by
  refine ⟨rfl, fun h' st' hok => ?_⟩
  unfold StructCall StructNew at hok
  split at hok
  · exact absurd hok (by simp)
  · split at hok
    · exact absurd hok (by simp)
    · injection hok with hpair
      injection hpair with h1 h2
      subst h1
      subst h2
      exact ⟨rfl, rfl⟩

/-- Witness for C10 at a concrete input. -/
theorem struct_call_drops_caching_witness :
    ({ shape := exShape, bufRef := 0, caching := .vundefined, cache := [] } : StructState).caching = JSVal.vundefined ∧
    ({ shape := exShape, bufRef := 0, caching := .vundefined, cache := [] } : StructState).caching.truthy = false :=
  (struct_call_drops_caching (fun _ => 0) [] exShape .vundefined (.vbool true)).2
    [[0]] { shape := exShape, bufRef := 0, caching := .vundefined, cache := [] } rfl

/-- C5: for every Buffer whose length is strictly less than the Shape's total
length, both `setPointer` and construction raise a `RangeError` immediately,
carrying both the required and the actual length. -/
theorem short_buffer_range_error (mem : Nat → Nat) (h : Heap) (st : StructState)
    (r : Nat) (s : Option Nat) (c : JSVal)
    (hshort : (h.getD r []).length < st.shape.totalLength) :
    setPointer mem h st (.vbuf r) s =
      .error (.rangeError st.shape.totalLength (h.getD r []).length) ∧
    StructNew mem h st.shape (.vbuf r) c =
      .error (.rangeError st.shape.totalLength (h.getD r []).length) := by
  rw [List.getD_eq_getElem?_getD] at hshort
  constructor
  · simp [setPointer, JSVal.truthy, List.getD_eq_getElem?_getD, hshort]
  · simp [StructNew, setPointer, JSVal.truthy, List.getD_eq_getElem?_getD, hshort]

/-- Witness for C5 at a concrete input: a zero-length buffer against a
one-byte Shape. -/
theorem short_buffer_range_error_witness :
    setPointer (fun _ => 0) [[]] exStPlain (.vbuf 0) none =
      .error (.rangeError exStPlain.shape.totalLength (([[]] : Heap).getD 0 []).length) ∧
    StructNew (fun _ => 0) [[]] exStPlain.shape (.vbuf 0) .vundefined =
      .error (.rangeError exStPlain.shape.totalLength (([[]] : Heap).getD 0 []).length) :=
  short_buffer_range_error (fun _ => 0) [[]] exStPlain 0 none .vundefined (by decide)

/-- C6: for every supplied argument that is truthy but not a Buffer, both
`setPointer` and construction raise a `TypeError` synchronously. -/
theorem nonbuffer_type_error (mem : Nat → Nat) (h : Heap) (st : StructState)
    (v : JSVal) (s : Option Nat) (c : JSVal)
    (ht : v.truthy = true) (hb : v.isBuffer = false) :
    setPointer mem h st v s = .error .typeError ∧
    StructNew mem h st.shape v c = .error .typeError := by
  cases v <;> simp_all [setPointer, StructNew, JSVal.truthy, JSVal.isBuffer]

/-- Witness for C6 at a concrete input: the number `5` is truthy and not a
Buffer. -/
theorem nonbuffer_type_error_witness :
    setPointer (fun _ => 0) [] exStPlain (.vnum 5) none = .error .typeError ∧
    StructNew (fun _ => 0) [] exStPlain.shape (.vnum 5) .vundefined = .error .typeError :=
  nonbuffer_type_error (fun _ => 0) [] exStPlain (.vnum 5) none .vundefined (by decide) rfl

/-- C3 counterexample: allocation with no buffer is NOT zero-filled. Node's
`new Buffer(n)` hands back raw allocator memory; when that memory holds the
byte 7, the freshly bound buffer reads `[7]`, not `[0]`. -/
theorem alloc_zero_fill_cex :
    setPointer (fun _ => 7) [] exStPlain .vundefined none =
      .ok ([[7]], { shape := exShape, bufRef := 0, caching := .vundefined, cache := [] }) ∧
    (([[7]] : Heap).getD 0 []) ≠ [0] :=
  ⟨rfl, by decide⟩

/-- C3 amended: constructing with no buffer (from a Shape with distinct
field names, so the accessor-definition loop passes), and `setPointer` with
no arguments, allocate a fresh buffer (a new heap cell the view is bound to)
of exactly the Shape's total length, whose contents are the allocator's raw
uninitialized memory — not necessarily zero. -/
theorem alloc_raw_memory (mem : Nat → Nat) (h : Heap) (st : StructState) (c : JSVal)
    (hnd : (st.shape.fields.map FieldDescriptor.name).Nodup) :
    setPointer mem h st .vundefined none =
      .ok (h ++ [newBuffer mem st.shape.totalLength], { st with bufRef := h.length }) ∧
    (newBuffer mem st.shape.totalLength).length = st.shape.totalLength ∧
    (∀ i, (newBuffer mem st.shape.totalLength).getD i 0 =
      if i < st.shape.totalLength then mem i else 0) ∧
    StructNew mem h st.shape .vundefined c =
      .ok (h ++ [newBuffer mem st.shape.totalLength],
           { shape := st.shape, bufRef := h.length, caching := c, cache := [] }) := by
  refine ⟨rfl, newBuffer_length mem _, fun i => newBuffer_getD mem _ i, ?_⟩
  have hdp : defineProperties [] st.shape.fields = .ok () :=
    defineProperties_ok_of_nodup _ _ hnd (fun fd _ hcon => List.not_mem_nil _ hcon)
  simp [StructNew, setPointer, JSVal.truthy, hdp]

/-- Witness for C3's amended theorem at a concrete input: allocator memory
holding the byte 7. -/
theorem alloc_raw_memory_witness :
    setPointer (fun _ => 7) [] exStPlain .vundefined none =
      .ok ([] ++ [newBuffer (fun _ => 7) exStPlain.shape.totalLength],
           { exStPlain with bufRef := List.length ([] : Heap) }) ∧
    (newBuffer (fun _ => 7) exStPlain.shape.totalLength).length =
      exStPlain.shape.totalLength ∧
    (newBuffer (fun _ => 7) exStPlain.shape.totalLength).getD 0 0 =
      (if 0 < exStPlain.shape.totalLength then 7 else 0) ∧
    StructNew (fun _ => 7) [] exStPlain.shape .vundefined (.vbool true) =
      .ok ([] ++ [newBuffer (fun _ => 7) exStPlain.shape.totalLength],
           { shape := exStPlain.shape, bufRef := List.length ([] : Heap),
             caching := .vbool true, cache := [] }) :=
  ⟨(alloc_raw_memory (fun _ => 7) [] exStPlain (.vbool true) (by decide)).1,
   (alloc_raw_memory (fun _ => 7) [] exStPlain (.vbool true) (by decide)).2.1,
   (alloc_raw_memory (fun _ => 7) [] exStPlain (.vbool true) (by decide)).2.2.1 0,
   (alloc_raw_memory (fun _ => 7) [] exStPlain (.vbool true) (by decide)).2.2.2⟩

/-- The binding the spec describes for `setBufferHandle(buffer, start)`:
adopt the buffer starting at byte offset `start` (default 0) and validate
that the buffer can hold `shape.totalLength` bytes *starting at `start`*.
Stated from the spec's words (§4.2/§4.5) for comparison with `setPointer`
above; the bound offset is returned alongside the state. -/
def setPointerSpec (h : Heap) (st : StructState) (r : Nat) (start : Nat) :
    Except JsError (Heap × StructState × Nat) :=
  if (h.getD r []).length < start + st.shape.totalLength then
    .error (.rangeError st.shape.totalLength (h.getD r []).length)
  else
    .ok (h, { st with bufRef := r }, start)

/-- C4 counterexample: a one-byte buffer with `start = 1` against a one-byte
Shape. The spec's validation (hold `totalLength` bytes starting at `start`)
rejects it, but the code accepts it and binds the buffer at offset 0: the
`start` argument of `setPointer` is never read. -/
theorem setPointer_start_cex :
    setPointer (fun _ => 0) [[9]] exStPlain (.vbuf 0) (some 1) =
      .ok ([[9]], { shape := exShape, bufRef := 0, caching := .vundefined, cache := [] }) ∧
    setPointerSpec [[9]] exStPlain 0 1 =
      .error (.rangeError 1 1) :=
  ⟨rfl, rfl⟩

/-- C4 amended: the `start` argument is accepted but ignored — the result of
`setPointer` is the same for every `start` — and a sufficiently long buffer
is adopted by reference bound at position 0, the length validation checking
only `buffer.length ≥ shape.totalLength` from position 0. -/
theorem setPointer_ignores_start (mem : Nat → Nat) (h : Heap) (st : StructState)
    (buf : JSVal) (s s' : Option Nat) (r : Nat)
    (hfit : st.shape.totalLength ≤ (h.getD r []).length) :
    setPointer mem h st buf s = setPointer mem h st buf s' ∧
    setPointer mem h st (.vbuf r) s = .ok (h, { st with bufRef := r }) := by
  refine ⟨rfl, ?_⟩
  rw [List.getD_eq_getElem?_getD] at hfit
  simp [setPointer, JSVal.truthy, List.getD_eq_getElem?_getD, Nat.not_lt.mpr hfit]

/-- Witness for C4's amended theorem at a concrete input. -/
theorem setPointer_ignores_start_witness :
    setPointer (fun _ => 0) [[9]] exStPlain (.vbuf 0) (some 1) =
      setPointer (fun _ => 0) [[9]] exStPlain (.vbuf 0) none ∧
    setPointer (fun _ => 0) [[9]] exStPlain (.vbuf 0) (some 1) =
      .ok ([[9]], { exStPlain with bufRef := 0 }) :=
  setPointer_ignores_start (fun _ => 0) [[9]] exStPlain (.vbuf 0) (some 1) none 0 (by decide)

/-- C1: `serialize()` flushes the cache to the live buffer by folding over
the Shape's fields in field-declaration order, writing each cached field's
value through its codec at its offset (`flushField`); every shape field is
absent from the cache afterwards (the satisfied entries are cleared), while
the bound buffer reference and the caching flag are untouched. -/
theorem serialize_flushes_in_order (h : Heap) (st : StructState) :
    (Struct.serialize h st).1 = st.shape.fields.foldl (flushField st) h ∧
    (∀ fd ∈ st.shape.fields, cacheLookup (Struct.serialize h st).2.cache fd.name = none) ∧
    (Struct.serialize h st).2.caching = st.caching ∧
    (Struct.serialize h st).2.bufRef = st.bufRef := by
  refine ⟨rfl, fun fd hmem => ?_, rfl, rfl⟩
  have hsome := findField_isSome_of_mem st.shape fd hmem
  show cacheLookup (st.cache.filter (fun kv => (st.shape.findField kv.1).isNone)) fd.name = none
  apply cacheLookup_filter_none
  intro v
  show (st.shape.findField fd.name).isNone = false
  cases hff : st.shape.findField fd.name with
  | none => rw [hff] at hsome; exact absurd hsome (by simp)
  | some fd' => rfl

/-- Witness for C1 at a concrete input: a view with the field `a` pending in
the cache. -/
theorem serialize_flushes_in_order_witness :
    (Struct.serialize [[0]] { shape := exShape, bufRef := 0, caching := .vbool true, cache := [("a", .vnum 5)] }).1 =
      exShape.fields.foldl (flushField { shape := exShape, bufRef := 0, caching := .vbool true, cache := [("a", .vnum 5)] }) [[0]] ∧
    cacheLookup (Struct.serialize [[0]] { shape := exShape, bufRef := 0, caching := .vbool true, cache := [("a", .vnum 5)] }).2.cache exField.name = none ∧
    (Struct.serialize [[0]] { shape := exShape, bufRef := 0, caching := .vbool true, cache := [("a", .vnum 5)] }).2.caching = .vbool true ∧
    (Struct.serialize [[0]] { shape := exShape, bufRef := 0, caching := .vbool true, cache := [("a", .vnum 5)] }).2.bufRef = 0 :=
  ⟨(serialize_flushes_in_order [[0]] _).1,
   (serialize_flushes_in_order [[0]] _).2.1 exField (List.mem_singleton.mpr rfl),
   (serialize_flushes_in_order [[0]] _).2.2.1,
   (serialize_flushes_in_order [[0]] _).2.2.2⟩

/-- C7: `toBuffer()` returns a defensive copy: a fresh buffer of exactly
`shape.totalLength` bytes whose contents equal the live buffer's bytes at
call time, bound at a heap reference distinct from the view's, so that
overwriting the copy never changes the result of any subsequent `get`. -/
theorem toBuffer_defensive (mem : Nat → Nat) (h : Heap) (st : StructState)
    (hlen : st.shape.totalLength ≤ (h.getD st.bufRef []).length)
    (href : st.bufRef < h.length) :
    (Struct.toBuffer mem h st).1.getD (Struct.toBuffer mem h st).2 [] =
      (h.getD st.bufRef []).take st.shape.totalLength ∧
    ((Struct.toBuffer mem h st).1.getD (Struct.toBuffer mem h st).2 []).length =
      st.shape.totalLength ∧
    (Struct.toBuffer mem h st).2 ≠ st.bufRef ∧
    (∀ b f, Struct.get ((Struct.toBuffer mem h st).1.set (Struct.toBuffer mem h st).2 b) st f =
      Struct.get h st f) := by
  have h2 : (Struct.toBuffer mem h st).2 = h.length := rfl
  have hfr : (newBuffer mem st.shape.totalLength).length = st.shape.totalLength :=
    newBuffer_length mem _
  have hk : min (newBuffer mem st.shape.totalLength).length (h.getD st.bufRef []).length =
      st.shape.totalLength := by
    rw [hfr]; exact Nat.min_eq_left hlen
  have hbuf1 : (Struct.toBuffer mem h st).1 =
      h ++ [(h.getD st.bufRef []).take st.shape.totalLength] := by
    simp only [Struct.toBuffer]
    rw [hk, List.drop_eq_nil_of_le (le_of_eq hfr), List.append_nil]
  have hne : h.length ≠ st.bufRef := Nat.ne_of_gt href
  have hfirst : (Struct.toBuffer mem h st).1.getD (Struct.toBuffer mem h st).2 [] =
      (h.getD st.bufRef []).take st.shape.totalLength := by
    rw [h2, hbuf1]
    exact heapGetD_append_self h _
  refine ⟨hfirst, ?_, ?_, ?_⟩
  · rw [hfirst, List.length_take]
    exact Nat.min_eq_left hlen
  · rw [h2]; exact hne
  · intro b f
    apply get_congr
    rw [h2, hbuf1, heapGetD_set_ne _ _ _ _ hne]
    exact List.getD_append _ _ _ _ href

/-- Witness for C7 at a concrete input: a one-byte view over the buffer
`[5]`; the copy is overwritten with `[9]` and the field still reads from the
original. -/
theorem toBuffer_defensive_witness :
    (Struct.toBuffer (fun _ => 0) [[5]] exStPlain).1.getD
        (Struct.toBuffer (fun _ => 0) [[5]] exStPlain).2 [] =
      (([[5]] : Heap).getD exStPlain.bufRef []).take exStPlain.shape.totalLength ∧
    ((Struct.toBuffer (fun _ => 0) [[5]] exStPlain).1.getD
        (Struct.toBuffer (fun _ => 0) [[5]] exStPlain).2 []).length =
      exStPlain.shape.totalLength ∧
    (Struct.toBuffer (fun _ => 0) [[5]] exStPlain).2 ≠ exStPlain.bufRef ∧
    Struct.get ((Struct.toBuffer (fun _ => 0) [[5]] exStPlain).1.set
        (Struct.toBuffer (fun _ => 0) [[5]] exStPlain).2 [9]) exStPlain "a" =
      Struct.get [[5]] exStPlain "a" :=
  ⟨(toBuffer_defensive (fun _ => 0) [[5]] exStPlain (by decide) (by decide)).1,
   (toBuffer_defensive (fun _ => 0) [[5]] exStPlain (by decide) (by decide)).2.1,
   (toBuffer_defensive (fun _ => 0) [[5]] exStPlain (by decide) (by decide)).2.2.1,
   (toBuffer_defensive (fun _ => 0) [[5]] exStPlain (by decide) (by decide)).2.2.2 [9] "a"⟩

/-- C8 counterexample: the factory raises no configuration error, on any
input: `createStruct` takes no field-list input at all and returns the plain
`Struct` constructor. A repeated field name is not caught at factory time;
it surfaces only when a view is constructed, as the accessor-definition
loop's `TypeError` — which is not a configuration error. -/
theorem createStruct_no_validation_cex :
    createStruct = .ok StructNew ∧
    StructNew (fun _ => 0) [] dupShape .vundefined .vundefined = .error .typeError ∧
    JsError.typeError ≠ JsError.configError :=
  ⟨rfl, rfl, by decide⟩

/-- C8 amended: the factory performs no validation and never fails:
`createStruct` takes no field-list input and returns a constructor that
forwards its arguments to `Struct`. Construction from a Shape with
pairwise-distinct field names succeeds with no configuration check (codecs
are never inspected); a Shape with a repeated field name fails only at
construction time, with the accessor loop's `TypeError`, never with a
configuration error. -/
theorem createStruct_amended (mem : Nat → Nat) (h : Heap) (sh : Shape) (c : JSVal) :
    createStruct = .ok StructNew ∧
    ((sh.fields.map FieldDescriptor.name).Nodup →
      StructNew mem h sh .vundefined c =
        .ok (h ++ [newBuffer mem sh.totalLength],
             { shape := sh, bufRef := h.length, caching := c, cache := [] })) ∧
    (¬ (sh.fields.map FieldDescriptor.name).Nodup →
      StructNew mem h sh .vundefined c = .error .typeError) := by
  refine ⟨rfl, fun hnd => ?_, fun hdup => ?_⟩
  · have hdp : defineProperties [] sh.fields = .ok () :=
      defineProperties_ok_of_nodup _ _ hnd (fun fd _ hcon => List.not_mem_nil _ hcon)
    simp [StructNew, setPointer, JSVal.truthy, hdp]
  · have hdp : defineProperties [] sh.fields = .error .typeError :=
      defineProperties_error_of_dup _ _ (Or.inl hdup)
    simp [StructNew, setPointer, JSVal.truthy, hdp]

/-- Witness for C8's amended theorem at concrete inputs: a duplicate-free
Shape constructs with no error, the duplicate-name Shape fails with the
`TypeError`. -/
theorem createStruct_amended_witness :
    StructNew (fun _ => 0) [] exShape .vundefined (.vbool true) =
      .ok ([] ++ [newBuffer (fun _ => 0) exShape.totalLength],
           { shape := exShape, bufRef := List.length ([] : Heap),
             caching := .vbool true, cache := [] }) ∧
    StructNew (fun _ => 0) [] dupShape .vundefined .vundefined = .error .typeError :=
  ⟨(createStruct_amended (fun _ => 0) [] exShape (.vbool true)).2.1 (by decide),
   (createStruct_amended (fun _ => 0) [] dupShape .vundefined).2.2 (by decide)⟩
